import Mathlib

/-!
Verification of the MQTT connection-synchronization core of the
globekeeper/bridges-as repository.

The embedding covers:
  * the persisted `connections` table and the generated query layer
    (`src/db/schema.sql`, `src/db/generated/queries_sql.ts`);
  * the manager operations `postConnection` / `deleteConnection`
    (`src/mqttConnectionManager/mqttConnectionManager.ts`) and
    `createMqttConnection` / `deleteMqttConnection`
    (`src/mqtt/mqttConnectionManager.ts`);
  * the tenant read endpoint `getConnections`;
  * an explicit interleaving semantics of two concurrent attach calls,
    at the granularity of the `await` points of the TypeScript code;
  * a reconciliation job modelled from the specification (the repository
    contains no such job).

The remote MQTTAS orchestrator is modelled as an oracle mapping each
emitted HTTP call to the status code it returns; a transport failure
(axios throwing) is modelled as a non-200 status, since both paths
return from the manager without touching the store.
-/

namespace BridgesAS

/-- A persisted row of the `connections` table (src/db/schema.sql).
`created_at` is omitted: it is filled by the schema default
(`current_timestamp`) and never read by any embedded operation. -/
structure ConnectionRow where
  broker : String
  clientId : String
  username : String
  password : String
  spaceIds : List String
deriving Repr, DecidableEq

/-- The `connections` table: a sequence of rows.  The schema's primary key
(broker, username) is stated as a hypothesis where a theorem needs it. -/
abbrev Store := List ConnectionRow

/-- The WHERE clause `broker = $1 AND username = $2` shared by the queries. -/
def rowMatches (broker username : String) (r : ConnectionRow) : Bool :=
  r.broker == broker && r.username == username

/-- Result shape of `SelectConnection` (queries_sql.ts): the query projects
`broker, client_id, username, space_ids` and omits `password`. -/
structure SelectConnectionRow where
  broker : String
  clientId : String
  username : String
  spaceIds : List String
deriving Repr, DecidableEq

def toSelectRow (r : ConnectionRow) : SelectConnectionRow :=
  ⟨r.broker, r.clientId, r.username, r.spaceIds⟩

/-- `selectConnection` (queries_sql.ts): runs `SelectConnection` and returns
null unless exactly one row came back (`result.rows.length !== 1`). -/
def selectConnection (db : Store) (broker username : String) :
    Option SelectConnectionRow :=
  match db.filter (rowMatches broker username) with
  | [r] => some (toSelectRow r)
  | _ => none

/-- `insertConnection` (queries_sql.ts, the generated query that the managers
execute): `INSERT ... ON CONFLICT (broker, username) DO NOTHING`.
Note: the authored src/db/queries.sql instead says
`ON CONFLICT (broker, username) DO UPDATE SET (client_id, password,
space_ids) = ($2, $4, $5)`; the generated file, which is what runs, does
nothing on conflict.  The row returned to the caller is ignored by both
managers, so only the store effect is modelled. -/
def insertConnection (db : Store) (broker clientId username password : String)
    (spaceIds : List String) : Store :=
  if db.any (rowMatches broker username) then db
  else db ++ [⟨broker, clientId, username, password, spaceIds⟩]

/-- `updateConnectionAssociatedSpaces` (queries_sql.ts):
`UPDATE connections SET space_ids = $1 WHERE broker = $2 AND username = $3`.
A wholesale write of the array argument. -/
def updateConnectionAssociatedSpaces (db : Store) (spaceIds : List String)
    (broker username : String) : Store :=
  db.map (fun r =>
    if rowMatches broker username r then { r with spaceIds := spaceIds } else r)

/-- Postgres `ARRAY_REMOVE(l, x)`: removes all elements equal to `x`. -/
def pgArrayRemove (l : List String) (x : String) : List String :=
  l.filter (fun y => y != x)

/-- Postgres `ARRAY_LENGTH(l, 1)`: NULL (`none`) for the empty array,
otherwise the length.  This NULL-for-empty behaviour is why the DELETE
clause of `DeleteSpaceFromConnectionAndPrune` can never fire. -/
def pgArrayLength (l : List String) : Option Nat :=
  if l.isEmpty then none else some l.length

/-- `deleteSpaceFromConnectionAndPrune` (queries_sql.ts):
`WITH updated AS (UPDATE connections SET space_ids = ARRAY_REMOVE(space_ids,
$1) WHERE broker = $2 AND username = $3) DELETE FROM connections WHERE
ARRAY_LENGTH(space_ids, 1) = 0`.
We model the reading most charitable to the code, in which the DELETE sees
the post-UPDATE rows (under Postgres's actual data-modifying-CTE snapshot
semantics it sees the pre-UPDATE rows, which is even further from pruning).
Either way the DELETE matches no row, because `ARRAY_LENGTH` of an emptied
array is NULL, not 0. -/
def deleteSpaceFromConnectionAndPrune (db : Store)
    (arrayRemove broker username : String) : Store :=
  let updated := db.map (fun r =>
    if rowMatches broker username r then
      { r with spaceIds := pgArrayRemove r.spaceIds arrayRemove }
    else r)
  updated.filter (fun r => !(pgArrayLength r.spaceIds == some 0))

/-- Postgres `@>` on text arrays: every element of `sub` occurs in `l`. -/
def pgContains (l sub : List String) : Bool :=
  sub.all (fun x => l.contains x)

/-- `selectSpaceConnections` (queries_sql.ts):
`SELECT * FROM connections WHERE space_ids @> $1`. -/
def selectSpaceConnections (db : Store) (spaceIds : List String) :
    List ConnectionRow :=
  db.filter (fun r => pgContains r.spaceIds spaceIds)

/-- `selectAllConnections` (queries_sql.ts): `SELECT * FROM connections`. -/
def selectAllConnections (db : Store) : List ConnectionRow := db

/-- An HTTP call that a manager operation sends to the MQTTAS orchestrator.
`create` is `POST /connection?space_id=` with body
`{connection: {broker, username, client_id, password}}`; `associate` is
`PUT /connection?space_id=` with body `{connection: {broker, username}}`
(no credentials); `disassociate` is
`DELETE /connection?space_id=&username=&broker=`. -/
inductive RemoteCall where
  | create (broker username clientId password spaceId : String)
  | associate (broker username spaceId : String)
  | disassociate (spaceId username broker : String)
deriving Repr, DecidableEq

/-- The request body `mqttConnection` of `POST /mqtt/connection`
(src/mqttConnectionManager/api.ts `MqttConnection`), restricted to the fields
the managers read. -/
structure MqttConnection where
  broker : String
  clientId : String
  username : String
  password : String
deriving Repr, DecidableEq

/-- One return site of `postConnection` / `createMqttConnection`. -/
inductive PostOutcome where
  | missingValues
  | createFailed
  | created
  | alreadyAssociated
  | associateFailed
  | associated
deriving Repr, DecidableEq

/-- The HTTP status the manager sends for each `PostOutcome` return site. -/
def PostOutcome.status : PostOutcome → Nat
  | .missingValues => 400
  | .createFailed => 404
  | .created => 200
  | .alreadyAssociated => 200
  | .associateFailed => 404
  | .associated => 200

/-- One return site of `deleteConnection` / `deleteMqttConnection`. -/
inductive DeleteOutcome where
  | missingParams
  | connectionNotFound
  | notAssociated
  | disassociateFailed
  | deleted
deriving Repr, DecidableEq

/-- The HTTP status the manager sends for each `DeleteOutcome` return site. -/
def DeleteOutcome.status : DeleteOutcome → Nat
  | .missingParams => 400
  | .connectionNotFound => 404
  | .notAssociated => 404
  | .disassociateFailed => 404
  | .deleted => 200

/-- Result of running one manager operation: the branch taken, the table
afterwards, and the orchestrator calls the operation emitted, in order. -/
structure OpResult (α : Type) where
  outcome : α
  db : Store
  calls : List RemoteCall
deriving Repr, DecidableEq

/-- `postConnection` (src/mqttConnectionManager/mqttConnectionManager.ts).
The missing-values guard models the JS truthiness test
`!req.body.mqttConnection || !broker || !username || !clientId ||
!password` (an absent body behaves like all fields empty).  `remote` is the
status the orchestrator returns for a given call; the manager mutates the
store only after a 200. -/
def postConnection (remote : RemoteCall → Nat) (db : Store) (spaceId : String)
    (conn : MqttConnection) : OpResult PostOutcome :=
  if conn.broker = "" ∨ conn.username = "" ∨ conn.clientId = "" ∨
      conn.password = "" then
    ⟨.missingValues, db, []⟩
  else
    match selectConnection db conn.broker conn.username with
    | none =>
      let call := RemoteCall.create conn.broker conn.username conn.clientId
        conn.password spaceId
      if remote call ≠ 200 then ⟨.createFailed, db, [call]⟩
      else ⟨.created,
        insertConnection db conn.broker conn.clientId conn.username
          conn.password [spaceId], [call]⟩
    | some row =>
      if spaceId ∈ row.spaceIds then ⟨.alreadyAssociated, db, []⟩
      else
        let call := RemoteCall.associate conn.broker conn.username spaceId
        if remote call ≠ 200 then ⟨.associateFailed, db, [call]⟩
        else ⟨.associated,
          updateConnectionAssociatedSpaces db (row.spaceIds ++ [spaceId])
            conn.broker conn.username, [call]⟩

/-- `createMqttConnection` (src/mqtt/mqttConnectionManager.ts).  Identical to
`postConnection` except that it performs no missing-values check and its
create branch fires on `!connection || connection.spaceIds.length === 0`,
i.e. also for a present row whose space array is empty. -/
def createMqttConnection (remote : RemoteCall → Nat) (db : Store)
    (spaceId : String) (conn : MqttConnection) : OpResult PostOutcome :=
  match selectConnection db conn.broker conn.username with
  | none =>
    let call := RemoteCall.create conn.broker conn.username conn.clientId
      conn.password spaceId
    if remote call ≠ 200 then ⟨.createFailed, db, [call]⟩
    else ⟨.created,
      insertConnection db conn.broker conn.clientId conn.username
        conn.password [spaceId], [call]⟩
  | some row =>
    if row.spaceIds.length = 0 then
      let call := RemoteCall.create conn.broker conn.username conn.clientId
        conn.password spaceId
      if remote call ≠ 200 then ⟨.createFailed, db, [call]⟩
      else ⟨.created,
        insertConnection db conn.broker conn.clientId conn.username
          conn.password [spaceId], [call]⟩
    else if spaceId ∈ row.spaceIds then ⟨.alreadyAssociated, db, []⟩
    else
      let call := RemoteCall.associate conn.broker conn.username spaceId
      if remote call ≠ 200 then ⟨.associateFailed, db, [call]⟩
      else ⟨.associated,
        updateConnectionAssociatedSpaces db (row.spaceIds ++ [spaceId])
          conn.broker conn.username, [call]⟩

/-- `deleteConnection` (src/mqttConnectionManager/mqttConnectionManager.ts);
`deleteMqttConnection` (src/mqtt/mqttConnectionManager.ts) is the same logic
line for line, differing only in the Authorization header it forwards and
the wording of the 400 message. -/
def deleteConnection (remote : RemoteCall → Nat) (db : Store)
    (spaceId username broker : String) : OpResult DeleteOutcome :=
  if username = "" ∨ broker = "" then ⟨.missingParams, db, []⟩
  else
    match selectConnection db broker username with
    | none => ⟨.connectionNotFound, db, []⟩
    | some row =>
      if spaceId ∉ row.spaceIds then ⟨.notAssociated, db, []⟩
      else
        let call := RemoteCall.disassociate spaceId username broker
        if remote call ≠ 200 then ⟨.disassociateFailed, db, [call]⟩
        else ⟨.deleted,
          deleteSpaceFromConnectionAndPrune db spaceId broker username,
          [call]⟩

/-- Entry of the `GET /mqtt/connections` response: `getConnections` builds
each element with exactly the fields `broker`, `clientId`, `username`
(the `MqttConnection` api type's optional `password` and `spacesIds` are
left unset). -/
structure ObfuscatedConnection where
  broker : String
  clientId : String
  username : String
deriving Repr, DecidableEq

/-- `getConnections` (src/mqttConnectionManager/mqttConnectionManager.ts):
selects the rows whose `space_ids` contain the requested space and maps
each to its obfuscated form.  (The route answers 200 with an empty body
when the list is empty; only the payload content is modelled.) -/
def getConnections (db : Store) (spaceId : String) :
    List ObfuscatedConnection :=
  (selectSpaceConnections db [spaceId]).map (fun c =>
    ⟨c.broker, c.clientId, c.username⟩)

/-! ### Sequences of attach/detach operations (src/mqtt manager) -/

/-- One provisioning request against the src/mqtt manager. -/
inductive Op where
  | attach (conn : MqttConnection) (spaceId : String)
  | detach (spaceId username broker : String)
deriving Repr, DecidableEq

/-- Run one request: the resulting table and the HTTP status sent back. -/
def stepOp (remote : RemoteCall → Nat) (db : Store) : Op → Store × Nat
  | .attach conn spaceId =>
    let r := createMqttConnection remote db spaceId conn
    (r.db, r.outcome.status)
  | .detach spaceId username broker =>
    let r := deleteConnection remote db spaceId username broker
    (r.db, r.outcome.status)

/-- Run a sequence of requests, collecting the statuses in order. -/
def runOps (remote : RemoteCall → Nat) (db : Store) :
    List Op → Store × List Nat
  | [] => (db, [])
  | op :: rest =>
    let s := stepOp remote db op
    let t := runOps remote s.1 rest
    (t.1, s.2 :: t.2)

/-- The space set the specification predicts for one identity after a
sequence of successful operations: spaceIds attached minus those
subsequently detached (duplicates never added). -/
def specSpaces (ops : List Op) : List String :=
  ops.foldl (fun acc op =>
    match op with
    | .attach _ s => if s ∈ acc then acc else acc ++ [s]
    | .detach s _ _ => acc.filter (fun y => y ≠ s)) []

/-! ### Interleaving semantics of two concurrent attach calls

`postConnection` suspends at each `await`: the `selectConnection` read, the
axios call, and the store write.  A thread is one in-flight
`postConnection` request, its phase recording which `await` it will resume
from; the store is the shared state.  (The missing-values validation is
synchronous code before the first `await` and is not a scheduling point;
the threads considered below all carry non-empty fields.) -/

inductive AttachPhase where
  | ready
  | readDone (found : Option SelectConnectionRow)
  | remoteDone (found : Option SelectConnectionRow) (status : Nat)
  | finished (outcome : PostOutcome)
deriving Repr, DecidableEq

structure AttachThread where
  conn : MqttConnection
  spaceId : String
  phase : AttachPhase
deriving Repr, DecidableEq

/-- Resume one thread up to its next `await` (or final return), following
the branches of `postConnection` exactly. -/
def attachThreadStep (remote : RemoteCall → Nat) (db : Store)
    (t : AttachThread) : Store × AttachThread × List RemoteCall :=
  match t.phase with
  | .ready =>
    (db, { t with
      phase := .readDone (selectConnection db t.conn.broker t.conn.username) },
      [])
  | .readDone none =>
    let call := RemoteCall.create t.conn.broker t.conn.username t.conn.clientId
      t.conn.password t.spaceId
    (db, { t with phase := .remoteDone none (remote call) }, [call])
  | .readDone (some row) =>
    if t.spaceId ∈ row.spaceIds then
      (db, { t with phase := .finished .alreadyAssociated }, [])
    else
      let call := RemoteCall.associate t.conn.broker t.conn.username t.spaceId
      (db, { t with phase := .remoteDone (some row) (remote call) }, [call])
  | .remoteDone none status =>
    if status ≠ 200 then (db, { t with phase := .finished .createFailed }, [])
    else
      (insertConnection db t.conn.broker t.conn.clientId t.conn.username
        t.conn.password [t.spaceId],
       { t with phase := .finished .created }, [])
  | .remoteDone (some row) status =>
    if status ≠ 200 then
      (db, { t with phase := .finished .associateFailed }, [])
    else
      (updateConnectionAssociatedSpaces db (row.spaceIds ++ [t.spaceId])
        t.conn.broker t.conn.username,
       { t with phase := .finished .associated }, [])
  | .finished _ => (db, t, [])

/-- Shared state of two concurrent attach requests plus the trace of
orchestrator calls emitted so far. -/
structure ConcState where
  db : Store
  t0 : AttachThread
  t1 : AttachThread
  calls : List RemoteCall
deriving Repr, DecidableEq

/-- Run the thread the scheduler picked (`false` = t0, `true` = t1). -/
def concStep (remote : RemoteCall → Nat) (s : ConcState) (pick : Bool) :
    ConcState :=
  if pick then
    let r := attachThreadStep remote s.db s.t1
    { s with db := r.1, t1 := r.2.1, calls := s.calls ++ r.2.2 }
  else
    let r := attachThreadStep remote s.db s.t0
    { s with db := r.1, t0 := r.2.1, calls := s.calls ++ r.2.2 }

/-- Run a whole schedule. -/
def runConc (remote : RemoteCall → Nat) (init : ConcState)
    (sched : List Bool) : ConcState :=
  sched.foldl (concStep remote) init

/-- Count how many `create` calls a trace contains. -/
def countCreates (calls : List RemoteCall) : Nat :=
  calls.countP (fun c =>
    match c with
    | .create _ _ _ _ _ => true
    | _ => false)

/-! ### Store primitive and reconciliation job modelled from the spec -/

/-- Modelled from the spec: the store primitive
`upsertWithSpace(broker, username, clientId, password, spaceId)` of spec
section 4.1, which the repository does not implement — "creates a new row
with `spaces = {spaceId}` if none exists; if one exists, atomically unions
`spaceId` into `spaces`".  Used only to compare the code's read-modify-write
commit against the specified atomic union. -/
def upsertWithSpaceSpecModel (db : Store)
    (broker username clientId password spaceId : String) : Store :=
  if db.any (rowMatches broker username) then
    db.map (fun r =>
      if rowMatches broker username r then
        { r with spaceIds :=
            if spaceId ∈ r.spaceIds then r.spaceIds
            else r.spaceIds ++ [spaceId] }
      else r)
  else db ++ [⟨broker, clientId, username, password, [spaceId]⟩]

/-- The orchestrator's view of one identity (spec section 3,
`RemoteLiveConnection`), as returned by `listLive()`. -/
structure RemoteLiveConnection where
  broker : String
  clientId : String
  username : String
  password : String
  spacesIds : List String
deriving Repr, DecidableEq

/-- Modelled from the spec: the per-identity body of the ReconciliationJob
of spec section 4.4, which the repository does not implement — "for each
`RemoteLiveConnection` from `listLive()` ... creates a missing local row,
adds missing space associations, and removes stale local space associations
that the remote no longer reports — always trusting the remote as ground
truth. Never calls the orchestrator to mutate remote state."  The result
carries the (always empty) list of orchestrator calls so that the no-call
guarantee is a statement about the job, not a vacuity. -/
def reconcileIdentity (db : Store) (live : RemoteLiveConnection) :
    Store × List RemoteCall :=
  if db.any (rowMatches live.broker live.username) then
    (db.map (fun r =>
      if rowMatches live.broker live.username r then
        { r with spaceIds := live.spacesIds }
      else r), [])
  else
    (db ++ [⟨live.broker, live.clientId, live.username, live.password,
      live.spacesIds⟩], [])

/-- Modelled from the spec: one full reconciliation pass over the
`listLive()` result, healing each identity in turn. -/
def reconcilePass (db : Store) :
    List RemoteLiveConnection → Store × List RemoteCall
  | [] => (db, [])
  | live :: rest =>
    let r := reconcileIdentity db live
    let t := reconcilePass r.1 rest
    (t.1, r.2 ++ t.2)

/-! ## Theorems -/

/-- C1: refuted on the code.  On a store holding the single row
(br, u) with spaces {s1}, detaching s1 succeeds (status 200, one
disassociate call), but `deleteSpaceFromConnectionAndPrune` does not
delete the row in the same call: the row survives with an empty space
array, and a subsequent get for (br, u) returns it — present, not absent.
The DELETE clause of the prune query compares `ARRAY_LENGTH(space_ids, 1)`
to 0, and Postgres yields NULL, never 0, for an emptied array. -/
theorem c1_prune_never_deletes_row :
    deleteConnection (fun _ => 200) [⟨"br", "cid", "u", "pw", ["s1"]⟩]
        "s1" "u" "br" =
      ⟨.deleted, [⟨"br", "cid", "u", "pw", []⟩],
        [.disassociate "s1" "u" "br"]⟩ ∧
    selectConnection
        (deleteConnection (fun _ => 200) [⟨"br", "cid", "u", "pw", ["s1"]⟩]
          "s1" "u" "br").db "br" "u" =
      some ⟨"br", "cid", "u", []⟩ := by
  decide

/-- C2: refuted on the code.  The sequence attach s1, detach s1, attach s1
for one identity reports success (status 200) for all three requests, yet
the final stored space set is empty while the attached-minus-detached set
is {s1}.  The detach leaves a row with an empty space array (C1), so the
re-attach takes the create branch — but its local commit is the generated
`INSERT ... ON CONFLICT (broker, username) DO NOTHING`, which leaves the
surviving empty row untouched. -/
theorem c2_success_sequence_breaks_membership_algebra :
    runOps (fun _ => 200) []
        [.attach ⟨"br", "cid", "u", "pw"⟩ "s1",
         .detach "s1" "u" "br",
         .attach ⟨"br", "cid", "u", "pw"⟩ "s1"] =
      ([⟨"br", "cid", "u", "pw", []⟩], [200, 200, 200]) ∧
    specSpaces
        [.attach ⟨"br", "cid", "u", "pw"⟩ "s1",
         .detach "s1" "u" "br",
         .attach ⟨"br", "cid", "u", "pw"⟩ "s1"] = ["s1"] := by
  decide

/-- C3: counterexample.  The existing-row commit of the manager is not an
atomic union: starting from the row (br, u) with spaces {s0}, two
interleaved attaches of s1 and s2 both read {s0}, both get a 200 from the
orchestrator, and both report success — yet the second commit, a wholesale
`SET space_ids = $1` of the array the first thread computed from its stale
read, erases s1: after five steps the store holds {s0, s1}, and the sixth
step (the second thread's commit) overwrites it with {s0, s2}.  The
spec-modelled atomic-union `upsertWithSpace` applied to the same two
operations keeps all of s0, s1, s2. -/
theorem c3_lost_update_counterexample :
    (runConc (fun _ => 200)
        ⟨[⟨"br", "cid", "u", "pw", ["s0"]⟩],
         ⟨⟨"br", "cid", "u", "pw"⟩, "s1", .ready⟩,
         ⟨⟨"br", "cid", "u", "pw"⟩, "s2", .ready⟩, []⟩
        [false, true, false, true, false]).db =
      [⟨"br", "cid", "u", "pw", ["s0", "s1"]⟩] ∧
    (runConc (fun _ => 200)
        ⟨[⟨"br", "cid", "u", "pw", ["s0"]⟩],
         ⟨⟨"br", "cid", "u", "pw"⟩, "s1", .ready⟩,
         ⟨⟨"br", "cid", "u", "pw"⟩, "s2", .ready⟩, []⟩
        [false, true, false, true, false, true]).db =
      [⟨"br", "cid", "u", "pw", ["s0", "s2"]⟩] ∧
    (runConc (fun _ => 200)
        ⟨[⟨"br", "cid", "u", "pw", ["s0"]⟩],
         ⟨⟨"br", "cid", "u", "pw"⟩, "s1", .ready⟩,
         ⟨⟨"br", "cid", "u", "pw"⟩, "s2", .ready⟩, []⟩
        [false, true, false, true, false, true]).t0.phase =
      .finished .associated ∧
    (runConc (fun _ => 200)
        ⟨[⟨"br", "cid", "u", "pw", ["s0"]⟩],
         ⟨⟨"br", "cid", "u", "pw"⟩, "s1", .ready⟩,
         ⟨⟨"br", "cid", "u", "pw"⟩, "s2", .ready⟩, []⟩
        [false, true, false, true, false, true]).t1.phase =
      .finished .associated ∧
    upsertWithSpaceSpecModel
        (upsertWithSpaceSpecModel [⟨"br", "cid", "u", "pw", ["s0"]⟩]
          "br" "u" "cid" "pw" "s1") "br" "u" "cid" "pw" "s2" =
      [⟨"br", "cid", "u", "pw", ["s0", "s1", "s2"]⟩] := by
  decide

/-- C8: counterexample.  The code serializes nothing: with the alternating
schedule both attach requests for the previously-unknown identity (br, u)
read an absent row, so both issue an orchestrator create call — two
creates, no associate — and both report success; moreover the final stored
space set is {s1} only, because the second local commit is an
`ON CONFLICT DO NOTHING` insert, so s2 is lost as well. -/
theorem c8_concurrent_double_create_counterexample :
    runConc (fun _ => 200)
        ⟨[], ⟨⟨"br", "cid", "u", "pw"⟩, "s1", .ready⟩,
         ⟨⟨"br", "cid", "u", "pw"⟩, "s2", .ready⟩, []⟩
        [false, true, false, true, false, true] =
      ⟨[⟨"br", "cid", "u", "pw", ["s1"]⟩],
       ⟨⟨"br", "cid", "u", "pw"⟩, "s1", .finished .created⟩,
       ⟨⟨"br", "cid", "u", "pw"⟩, "s2", .finished .created⟩,
       [.create "br" "u" "cid" "pw" "s1",
        .create "br" "u" "cid" "pw" "s2"]⟩ ∧
    countCreates
        (runConc (fun _ => 200)
          ⟨[], ⟨⟨"br", "cid", "u", "pw"⟩, "s1", .ready⟩,
           ⟨⟨"br", "cid", "u", "pw"⟩, "s2", .ready⟩, []⟩
          [false, true, false, true, false, true]).calls = 2 := by
  decide

/-! ### Helper lemmas about the query layer -/

theorem filter_eq_nil_of_any_eq_false (db : Store) (b u : String)
    (h : db.any (rowMatches b u) = false) :
    db.filter (rowMatches b u) = [] := by
  rw [List.filter_eq_nil_iff]
  intro a ha
  have := List.any_eq_false.mp h a ha
  simpa using this

theorem selectConnection_of_any_eq_false (db : Store) (b u : String)
    (h : db.any (rowMatches b u) = false) :
    selectConnection db b u = none := by
  unfold selectConnection
  rw [filter_eq_nil_of_any_eq_false db b u h]

theorem filter_insertConnection_self (db : Store)
    (b cid u pw : String) (sp : List String)
    (h : db.any (rowMatches b u) = false) :
    (insertConnection db b cid u pw sp).filter (rowMatches b u) =
      [⟨b, cid, u, pw, sp⟩] := by
  unfold insertConnection
  rw [if_neg (by simp [h])]
  rw [List.filter_append, filter_eq_nil_of_any_eq_false db b u h]
  simp [rowMatches]

theorem filter_updateConnectionAssociatedSpaces (db : Store)
    (sp : List String) (b u : String) :
    (updateConnectionAssociatedSpaces db sp b u).filter (rowMatches b u) =
      (db.filter (rowMatches b u)).map
        (fun r => { r with spaceIds := sp }) := by
  induction db with
  | nil => rfl
  | cons r t ih =>
    unfold updateConnectionAssociatedSpaces at ih ⊢
    have hrw : rowMatches b u { r with spaceIds := sp } = rowMatches b u r :=
      rfl
    by_cases h : rowMatches b u r
    · simp [List.filter_cons, h, hrw, ih]
    · simp [List.filter_cons, h, hrw, ih]

/-- The identity-and-credential projection of a row: everything but the
space set. -/
def credsOf (r : ConnectionRow) : String × String × String × String :=
  (r.broker, r.clientId, r.username, r.password)

theorem update_map_credsOf (db : Store) (sp : List String) (b u : String) :
    (updateConnectionAssociatedSpaces db sp b u).map credsOf =
      db.map credsOf := by
  unfold updateConnectionAssociatedSpaces
  rw [List.map_map]
  apply List.map_congr_left
  intro r _
  by_cases h : rowMatches b u r <;> simp [credsOf, h]

/-! ### Claim theorems C4-C7 -/

/-- C4: confirmed.  When every orchestrator call fails (any non-200 status;
a transport failure returns from the same catch without a store write),
attach (both manager variants) and detach leave the store exactly as it
was, and whenever the operation did reach out to the orchestrator it
returns the corresponding remote-failure outcome. -/
theorem c4_remote_failure_leaves_store_unchanged
    (remote : RemoteCall → Nat) (db : Store) (spaceId : String)
    (conn : MqttConnection) (username broker : String)
    (hfail : ∀ c, remote c ≠ 200) :
    ((postConnection remote db spaceId conn).db = db ∧
     ((postConnection remote db spaceId conn).calls ≠ [] →
      (postConnection remote db spaceId conn).outcome = .createFailed ∨
      (postConnection remote db spaceId conn).outcome = .associateFailed)) ∧
    ((createMqttConnection remote db spaceId conn).db = db ∧
     ((createMqttConnection remote db spaceId conn).calls ≠ [] →
      (createMqttConnection remote db spaceId conn).outcome = .createFailed ∨
      (createMqttConnection remote db spaceId conn).outcome =
        .associateFailed)) ∧
    ((deleteConnection remote db spaceId username broker).db = db ∧
     ((deleteConnection remote db spaceId username broker).calls ≠ [] →
      (deleteConnection remote db spaceId username broker).outcome =
        .disassociateFailed)) := by
  refine ⟨?_, ?_, ?_⟩
  · unfold postConnection
    split
    · exact ⟨rfl, by intro h; simp at h⟩
    · split
      · rw [if_pos (hfail _)]
        exact ⟨rfl, fun _ => Or.inl rfl⟩
      · split
        · exact ⟨rfl, by intro h; simp at h⟩
        · rw [if_pos (hfail _)]
          exact ⟨rfl, fun _ => Or.inr rfl⟩
  · unfold createMqttConnection
    split
    · rw [if_pos (hfail _)]
      exact ⟨rfl, fun _ => Or.inl rfl⟩
    · split
      · rw [if_pos (hfail _)]
        exact ⟨rfl, fun _ => Or.inl rfl⟩
      · split
        · exact ⟨rfl, by intro h; simp at h⟩
        · rw [if_pos (hfail _)]
          exact ⟨rfl, fun _ => Or.inr rfl⟩
  · unfold deleteConnection
    split
    · exact ⟨rfl, by intro h; simp at h⟩
    · split
      · exact ⟨rfl, by intro h; simp at h⟩
      · split
        · exact ⟨rfl, by intro h; simp at h⟩
        · rw [if_pos (hfail _)]
          exact ⟨rfl, fun _ => rfl⟩

theorem c4_witness :
    (postConnection (fun _ => 500) [] "!s1:x"
      ⟨"br", "cid", "u", "pw"⟩).db = [] ∧
    (deleteConnection (fun _ => 500) [⟨"br", "cid", "u", "pw", ["!s1:x"]⟩]
      "!s1:x" "u" "br").db = [⟨"br", "cid", "u", "pw", ["!s1:x"]⟩] :=
  ⟨(c4_remote_failure_leaves_store_unchanged (fun _ => 500) [] "!s1:x"
      ⟨"br", "cid", "u", "pw"⟩ "u" "br"
      (by intro c; show (500 : Nat) ≠ 200; decide)).1.1,
   (c4_remote_failure_leaves_store_unchanged (fun _ => 500)
      [⟨"br", "cid", "u", "pw", ["!s1:x"]⟩] "!s1:x"
      ⟨"br", "cid", "u", "pw"⟩ "u" "br"
      (by intro c; show (500 : Nat) ≠ 200; decide)).2.2.1⟩

/-- C5: confirmed.  If the identity's row already lists the space, attach
(both manager variants) answers success (status 200), emits no
orchestrator call at all, and leaves the store untouched. -/
theorem c5_reattach_idempotent_no_remote_call
    (remote : RemoteCall → Nat) (db : Store) (spaceId : String)
    (conn : MqttConnection) (row : SelectConnectionRow)
    (hb : conn.broker ≠ "") (hu : conn.username ≠ "")
    (hc : conn.clientId ≠ "") (hp : conn.password ≠ "")
    (hsel : selectConnection db conn.broker conn.username = some row)
    (hmem : spaceId ∈ row.spaceIds) :
    postConnection remote db spaceId conn = ⟨.alreadyAssociated, db, []⟩ ∧
    createMqttConnection remote db spaceId conn =
      ⟨.alreadyAssociated, db, []⟩ ∧
    (postConnection remote db spaceId conn).outcome.status = 200 := by
  have hlen : row.spaceIds.length ≠ 0 := by
    have hne := List.ne_nil_of_mem hmem
    simpa [List.length_eq_zero] using hne
  refine ⟨?_, ?_, ?_⟩
  · simp [postConnection, hsel, hmem, hb, hu, hc, hp]
  · simp [createMqttConnection, hsel, hmem, hlen]
  · simp [postConnection, hsel, hmem, hb, hu, hc, hp, PostOutcome.status]

theorem c5_witness :
    postConnection (fun _ => 200) [⟨"br", "cid", "u", "pw", ["!s1:x"]⟩]
        "!s1:x" ⟨"br", "cid", "u", "pw"⟩ =
      ⟨.alreadyAssociated, [⟨"br", "cid", "u", "pw", ["!s1:x"]⟩], []⟩ :=
  (c5_reattach_idempotent_no_remote_call (fun _ => 200)
    [⟨"br", "cid", "u", "pw", ["!s1:x"]⟩] "!s1:x" ⟨"br", "cid", "u", "pw"⟩
    ⟨"br", "cid", "u", ["!s1:x"]⟩ (by decide) (by decide) (by decide)
    (by decide) (by decide) (by decide)).1

/-- C6: confirmed.  Detach on an identity with no row fails with the
connection-not-found error, and detach of a space the row does not list
fails with the not-associated error; in both cases no orchestrator call is
emitted and the store is unchanged. -/
theorem c6_detach_missing_fails_without_remote_call
    (remote : RemoteCall → Nat) (db : Store)
    (spaceId username broker : String)
    (hu : username ≠ "") (hb : broker ≠ "") :
    (selectConnection db broker username = none →
      deleteConnection remote db spaceId username broker =
        ⟨.connectionNotFound, db, []⟩) ∧
    (∀ row, selectConnection db broker username = some row →
      spaceId ∉ row.spaceIds →
      deleteConnection remote db spaceId username broker =
        ⟨.notAssociated, db, []⟩) := by
  constructor
  · intro h
    simp [deleteConnection, h, hu, hb]
  · intro row h hmem
    simp [deleteConnection, h, hu, hb, hmem]

theorem c6_witness :
    deleteConnection (fun _ => 200) [] "!s1:x" "u" "br" =
      ⟨.connectionNotFound, [], []⟩ ∧
    deleteConnection (fun _ => 200) [⟨"br", "cid", "u", "pw", ["!s1:x"]⟩]
        "!s2:x" "u" "br" =
      ⟨.notAssociated, [⟨"br", "cid", "u", "pw", ["!s1:x"]⟩], []⟩ :=
  ⟨(c6_detach_missing_fails_without_remote_call (fun _ => 200) [] "!s1:x"
      "u" "br" (by decide) (by decide)).1 (by decide),
   (c6_detach_missing_fails_without_remote_call (fun _ => 200)
      [⟨"br", "cid", "u", "pw", ["!s1:x"]⟩] "!s2:x" "u" "br" (by decide)
      (by decide)).2 ⟨"br", "cid", "u", ["!s1:x"]⟩ (by decide) (by decide)⟩

/-- C7: confirmed.  When a row already exists for (broker, username), an
attach — whatever clientId or password the request carries — changes no
row's broker, clientId, username or password (only space sets can change),
and every orchestrator call it emits is an associate call, which by
construction carries only broker, username and the space id, never
credentials. -/
theorem c7_attach_existing_preserves_credentials
    (remote : RemoteCall → Nat) (db : Store) (spaceId : String)
    (conn : MqttConnection) (row : SelectConnectionRow)
    (hsel : selectConnection db conn.broker conn.username = some row) :
    (postConnection remote db spaceId conn).db.map credsOf =
      db.map credsOf ∧
    ∀ c ∈ (postConnection remote db spaceId conn).calls,
      ∃ s, c = RemoteCall.associate conn.broker conn.username s := by
  unfold postConnection
  split
  · exact ⟨rfl, by intro c hc; simp at hc⟩
  · rw [hsel]
    dsimp only
    split
    · exact ⟨rfl, by intro c hc; simp at hc⟩
    · split
      · refine ⟨rfl, ?_⟩
        intro c hc
        simp at hc
        exact ⟨spaceId, hc⟩
      · refine ⟨update_map_credsOf _ _ _ _, ?_⟩
        intro c hc
        simp at hc
        exact ⟨spaceId, hc⟩

theorem c7_witness :
    (postConnection (fun _ => 200) [⟨"br", "cid", "u", "pw", ["!s1:x"]⟩]
      "!s2:x" ⟨"br", "cid2", "u", "pw2"⟩).db.map credsOf =
      [⟨"br", "cid", "u", "pw", ["!s1:x"]⟩].map credsOf :=
  (c7_attach_existing_preserves_credentials (fun _ => 200)
    [⟨"br", "cid", "u", "pw", ["!s1:x"]⟩] "!s2:x" ⟨"br", "cid2", "u", "pw2"⟩
    ⟨"br", "cid", "u", ["!s1:x"]⟩ (by decide)).1

/-! ### Claim theorems C3, C8 (amended forms), C9, C10 -/

/-- C3 (amended): `insertConnection` creates a new row with
`spaces = {spaceId}` when no row exists for the identity; but when a row
exists the commit is not an atomic union: the manager separately reads the
full space set and then has `updateConnectionAssociatedSpaces` write the
full recomputed array (`SET space_ids = $1`) wholesale. -/
theorem c3_amended_upsert_is_read_modify_write
    (remote : RemoteCall → Nat) (db : Store) (spaceId : String)
    (conn : MqttConnection)
    (hb : conn.broker ≠ "") (hu : conn.username ≠ "")
    (hc : conn.clientId ≠ "") (hp : conn.password ≠ "") :
    (db.any (rowMatches conn.broker conn.username) = false →
      remote (RemoteCall.create conn.broker conn.username conn.clientId
        conn.password spaceId) = 200 →
      postConnection remote db spaceId conn =
        ⟨.created,
         db ++ [⟨conn.broker, conn.clientId, conn.username, conn.password,
           [spaceId]⟩],
         [RemoteCall.create conn.broker conn.username conn.clientId
           conn.password spaceId]⟩) ∧
    (∀ row, selectConnection db conn.broker conn.username = some row →
      spaceId ∉ row.spaceIds →
      remote (RemoteCall.associate conn.broker conn.username spaceId) = 200 →
      postConnection remote db spaceId conn =
        ⟨.associated,
         updateConnectionAssociatedSpaces db (row.spaceIds ++ [spaceId])
           conn.broker conn.username,
         [RemoteCall.associate conn.broker conn.username spaceId]⟩) := by
  constructor
  · intro hany h200
    have hsel := selectConnection_of_any_eq_false db conn.broker conn.username
      hany
    simp [postConnection, insertConnection, hsel, hb, hu, hc, hp, h200, hany]
  · intro row hsel hmem h200
    simp [postConnection, hsel, hb, hu, hc, hp, h200, hmem]

theorem c3_amended_witness :
    (postConnection (fun _ => 200) [] "!s1:x"
      ⟨"br", "cid", "u", "pw"⟩).db =
      [⟨"br", "cid", "u", "pw", ["!s1:x"]⟩] ∧
    (postConnection (fun _ => 200) [⟨"br", "cid", "u", "pw", ["!s0:x"]⟩]
      "!s1:x" ⟨"br", "cid", "u", "pw"⟩).db =
      updateConnectionAssociatedSpaces [⟨"br", "cid", "u", "pw", ["!s0:x"]⟩]
        (["!s0:x"] ++ ["!s1:x"]) "br" "u" := by
  constructor
  · have h := (c3_amended_upsert_is_read_modify_write (fun _ => 200) []
      "!s1:x" ⟨"br", "cid", "u", "pw"⟩ (by decide) (by decide) (by decide)
      (by decide)).1 (by decide) rfl
    rw [h]
    rfl
  · have h := (c3_amended_upsert_is_read_modify_write (fun _ => 200)
      [⟨"br", "cid", "u", "pw", ["!s0:x"]⟩] "!s1:x"
      ⟨"br", "cid", "u", "pw"⟩ (by decide) (by decide) (by decide)
      (by decide)).2 ⟨"br", "cid", "u", ["!s0:x"]⟩ (by decide) (by decide)
      rfl
    rw [h]

/-- C8 (amended): the code performs no per-identity serialization (see the
counterexample), but when the two attach calls for the same
previously-unknown identity run serially, exactly one orchestrator create
call and one associate call occur, and the final stored space set holds
both spaceIds. -/
theorem c8_amended_serialized_attaches_single_create
    (remote : RemoteCall → Nat) (db : Store)
    (broker username clientId password s1 s2 : String)
    (hb : broker ≠ "") (hu : username ≠ "") (hc : clientId ≠ "")
    (hp : password ≠ "")
    (hnew : db.any (rowMatches broker username) = false)
    (hne : s1 ≠ s2)
    (h200c : remote (RemoteCall.create broker username clientId password s1)
      = 200)
    (h200a : remote (RemoteCall.associate broker username s2) = 200) :
    (postConnection remote db s1 ⟨broker, clientId, username, password⟩).calls
        ++ (postConnection remote
          (postConnection remote db s1
            ⟨broker, clientId, username, password⟩).db
          s2 ⟨broker, clientId, username, password⟩).calls =
      [RemoteCall.create broker username clientId password s1,
       RemoteCall.associate broker username s2] ∧
    countCreates
        ((postConnection remote db s1
          ⟨broker, clientId, username, password⟩).calls
        ++ (postConnection remote
          (postConnection remote db s1
            ⟨broker, clientId, username, password⟩).db
          s2 ⟨broker, clientId, username, password⟩).calls) = 1 ∧
    selectConnection
        (postConnection remote
          (postConnection remote db s1
            ⟨broker, clientId, username, password⟩).db
          s2 ⟨broker, clientId, username, password⟩).db broker username =
      some ⟨broker, clientId, username, [s1, s2]⟩ := by
  have hsel1 : selectConnection db broker username = none :=
    selectConnection_of_any_eq_false db broker username hnew
  have hr1 : postConnection remote db s1 ⟨broker, clientId, username, password⟩
      = ⟨.created, insertConnection db broker clientId username password [s1],
        [RemoteCall.create broker username clientId password s1]⟩ := by
    simp [postConnection, hsel1, hb, hu, hc, hp, h200c]
  have hsel2 : selectConnection
      (insertConnection db broker clientId username password [s1])
      broker username = some ⟨broker, clientId, username, [s1]⟩ := by
    unfold selectConnection
    rw [filter_insertConnection_self db broker clientId username password [s1]
      hnew]
    rfl
  have hne2 : ¬s2 = s1 := fun h => hne h.symm
  have hr2 : postConnection remote
      (insertConnection db broker clientId username password [s1]) s2
      ⟨broker, clientId, username, password⟩
      = ⟨.associated,
        updateConnectionAssociatedSpaces
          (insertConnection db broker clientId username password [s1])
          ([s1] ++ [s2]) broker username,
        [RemoteCall.associate broker username s2]⟩ := by
    simp [postConnection, hsel2, hb, hu, hc, hp, h200a, hne2]
  rw [hr1]
  dsimp only
  rw [hr2]
  refine ⟨rfl, rfl, ?_⟩
  unfold selectConnection
  rw [filter_updateConnectionAssociatedSpaces, filter_insertConnection_self
    db broker clientId username password [s1] hnew]
  rfl

theorem c8_amended_witness :
    (postConnection (fun _ => 200) [] "!s1:x"
        ⟨"br", "cid", "u", "pw"⟩).calls
      ++ (postConnection (fun _ => 200)
        (postConnection (fun _ => 200) [] "!s1:x"
          ⟨"br", "cid", "u", "pw"⟩).db
        "!s2:x" ⟨"br", "cid", "u", "pw"⟩).calls =
      [RemoteCall.create "br" "u" "cid" "pw" "!s1:x",
       RemoteCall.associate "br" "u" "!s2:x"] ∧
    selectConnection
        (postConnection (fun _ => 200)
          (postConnection (fun _ => 200) [] "!s1:x"
            ⟨"br", "cid", "u", "pw"⟩).db
          "!s2:x" ⟨"br", "cid", "u", "pw"⟩).db "br" "u" =
      some ⟨"br", "cid", "u", ["!s1:x", "!s2:x"]⟩ := by
  have h := c8_amended_serialized_attaches_single_create (fun _ => 200) []
    "br" "u" "cid" "pw" "!s1:x" "!s2:x" (by decide) (by decide) (by decide)
    (by decide) (by decide) (by decide) rfl rfl
  exact ⟨h.1, h.2.2⟩

/-- C9: confirmed against the job modelled from the spec (the repository
has no reconciliation job).  For each `RemoteLiveConnection`, the job
creates a missing local row from the remote data, and for an existing
identity makes the local space set exactly the remote's — so missing
associations are added and stale ones removed, the remote being ground
truth — and neither the per-identity step nor a whole pass ever emits an
orchestrator call. -/
theorem c9_reconciliation_heals_local_drift
    (db : Store) (live : RemoteLiveConnection) :
    (db.any (rowMatches live.broker live.username) = false →
      (reconcileIdentity db live).1 =
        db ++ [⟨live.broker, live.clientId, live.username, live.password,
          live.spacesIds⟩]) ∧
    (∀ r ∈ (reconcileIdentity db live).1,
      rowMatches live.broker live.username r = true →
      r.spaceIds = live.spacesIds) ∧
    (reconcileIdentity db live).2 = [] ∧
    (∀ lives : List RemoteLiveConnection, ∀ dbp : Store,
      (reconcilePass dbp lives).2 = []) := by
  refine ⟨?_, ?_, ?_, ?_⟩
  · intro h
    unfold reconcileIdentity
    rw [if_neg (by simp [h])]
  · intro r hr hm
    unfold reconcileIdentity at hr
    by_cases h : db.any (rowMatches live.broker live.username)
    · rw [if_pos h] at hr
      rcases List.mem_map.mp hr with ⟨r0, hr0, rfl⟩
      by_cases h0 : rowMatches live.broker live.username r0
      · simp [h0]
      · rw [if_neg h0] at hm ⊢
        exact absurd hm h0
    · rw [if_neg h] at hr
      rcases List.mem_append.mp hr with h1 | h1
      · have := List.any_eq_false.mp (by simpa using h) r h1
        exact absurd hm (by simpa using this)
      · rcases List.mem_singleton.mp h1 with rfl
        rfl
  · unfold reconcileIdentity
    split <;> rfl
  · intro lives
    induction lives with
    | nil => intro dbp; rfl
    | cons l rest ih =>
      intro dbp
      unfold reconcilePass
      have h2 : (reconcileIdentity dbp l).2 = [] := by
        unfold reconcileIdentity
        split <;> rfl
      dsimp only
      rw [h2, ih]
      rfl

theorem c9_witness :
    (reconcileIdentity [] ⟨"br", "cid", "u", "pw", ["!s1:x"]⟩).1 =
      [⟨"br", "cid", "u", "pw", ["!s1:x"]⟩] ∧
    (reconcilePass [⟨"br", "cid", "u", "pw", ["!s0:x"]⟩]
      [⟨"br", "cid", "u", "pw", ["!s1:x"]⟩]).2 = [] := by
  constructor
  · have h := (c9_reconciliation_heals_local_drift []
      ⟨"br", "cid", "u", "pw", ["!s1:x"]⟩).1 (by decide)
    rw [h]
    rfl
  · exact (c9_reconciliation_heals_local_drift []
      ⟨"br", "cid", "u", "pw", ["!s1:x"]⟩).2.2.2
      [⟨"br", "cid", "u", "pw", ["!s1:x"]⟩]
      [⟨"br", "cid", "u", "pw", ["!s0:x"]⟩]

/-- Two rows that agree on everything a response can reveal, differing at
most in the stored password. -/
def eqExceptPassword (r1 r2 : ConnectionRow) : Prop :=
  r1.broker = r2.broker ∧ r1.clientId = r2.clientId ∧
  r1.username = r2.username ∧ r1.spaceIds = r2.spaceIds

/-- C10: confirmed.  `getConnections` builds each response entry with only
broker, clientId and username (the `ObfuscatedConnection` shape carries no
password and no space list), so two stores that pairwise agree on
everything but the password yield identical responses for every space:
the response cannot depend on any stored password. -/
theorem c10_response_password_noninterference
    (db1 db2 : Store) (spaceId : String)
    (h : List.Forall₂ eqExceptPassword db1 db2) :
    getConnections db1 spaceId = getConnections db2 spaceId := by
  induction h with
  | nil => rfl
  | @cons a b l1 l2 hr ht ih =>
    obtain ⟨hbr, hcl, hus, hsp⟩ := hr
    unfold getConnections selectSpaceConnections at ih ⊢
    simp only [List.filter_cons, hsp]
    by_cases hm : pgContains b.spaceIds [spaceId]
    · simp only [hm, if_true, List.map_cons, hbr, hcl, hus]
      rw [ih]
    · simp only [hm, Bool.false_eq_true, if_false]
      exact ih

theorem c10_witness :
    getConnections [⟨"br", "cid", "u", "pwA", ["!s1:x"]⟩] "!s1:x" =
      getConnections [⟨"br", "cid", "u", "pwB", ["!s1:x"]⟩] "!s1:x" :=
  c10_response_password_noninterference
    [⟨"br", "cid", "u", "pwA", ["!s1:x"]⟩]
    [⟨"br", "cid", "u", "pwB", ["!s1:x"]⟩] "!s1:x"
    (List.Forall₂.cons ⟨rfl, rfl, rfl, rfl⟩ List.Forall₂.nil)

end BridgesAS

